import Mathlib

/-
  A shallow embedding of the timeline / section / assembly-plan core of the
  VideoCutter repository (src/VideoCutter.py and src/CutWindow.py).

  Times are modelled as rationals (ℚ): the Python code works with real-valued
  seconds, and every operation of the editing core is exact arithmetic on
  them.  Section states are the strings "keep" / "delete", exactly as the
  source stores them in CutWindow.sections.  The external collaborators
  (moviepy clips, VLC, Qt widgets) appear only through the data the core
  hands them: a subclip(last_time, cut_time).audio of duration
  cut_time - last_time becomes a KeepRange step, an
  AudioClip(duration = silence_duration) becomes a SilenceGap step.
-/

namespace VideoCutter

/-- One step of an assembly plan: the audio clips gathered by
`cut_and_join_sections_mp3` / `cut_and_join_sections_with_background`.
`keepRange a b` stands for `video.subclip(a, b).audio`;
`silenceGap d` stands for `AudioClip(lambda t: [0], duration=d)`. -/
inductive PlanStep
  | keepRange (start stop : ℚ)
  | silenceGap (duration : ℚ)
  deriving DecidableEq, Repr

/-- Duration of one plan step: a subclip from `a` to `b` lasts `b - a`
seconds, a silence clip lasts its stated duration. -/
def stepDuration : PlanStep → ℚ
  | PlanStep.keepRange a b => b - a
  | PlanStep.silenceGap d => d

/-- Total duration of a plan: `final_duration = sum([clip.duration for clip
in final_audio_clips])` at CutWindow.py line 245. -/
def planTotalDuration (plan : List PlanStep) : ℚ :=
  (plan.map stepDuration).sum

/-- The loop body of `cut_and_join_sections_mp3` (CutWindow.py lines
273-279): iterate `enumerate(self.cut_points + [self.duration])` carrying
`last_time`; for a section whose state is "keep" append the subclip's audio,
then a silence clip when `i < len(self.cut_points)`.  `sections[i]` is list
indexing; the app always holds `len(sections) == len(cut_points) + 1`, and
an index beyond the list is read here as a non-"keep" default. -/
def mp3KeptClips (sections : List String) (silence_duration : ℚ) (n : ℕ) :
    ℕ → ℚ → List ℚ → List PlanStep
  | _, _, [] => []
  | i, last_time, cut_time :: rest =>
    (if sections.getD i "" = "keep" then
      PlanStep.keepRange last_time cut_time ::
        (if i < n then [PlanStep.silenceGap silence_duration] else [])
    else []) ++ mp3KeptClips sections silence_duration n (i + 1) cut_time rest

/-- The audio plan assembled by `CutWindow.cut_and_join_sections_mp3`:
the sequence of kept subclips and silence clips, in order. -/
def cut_and_join_sections_mp3 (cut_points : List ℚ) (duration : ℚ)
    (sections : List String) (silence_duration : ℚ) : List PlanStep :=
  mp3KeptClips sections silence_duration cut_points.length 0 0
    (cut_points ++ [duration])

/-- The loop body of `cut_and_join_sections_with_background` (CutWindow.py
lines 233-239), translated on its own from that function: structurally the
same gathering of `final_audio_clips`. -/
def backgroundKeptClips (sections : List String) (silence_duration : ℚ)
    (n : ℕ) : ℕ → ℚ → List ℚ → List PlanStep
  | _, _, [] => []
  | i, last_time, cut_time :: rest =>
    (if sections.getD i "" = "keep" then
      PlanStep.keepRange last_time cut_time ::
        (if i < n then [PlanStep.silenceGap silence_duration] else [])
    else []) ++ backgroundKeptClips sections silence_duration n (i + 1)
      cut_time rest

/-- The audio plan assembled by
`CutWindow.cut_and_join_sections_with_background` before it is laid under
the background image. -/
def cut_and_join_sections_with_background (cut_points : List ℚ)
    (duration : ℚ) (sections : List String) (silence_duration : ℚ) :
    List PlanStep :=
  backgroundKeptClips sections silence_duration cut_points.length 0 0
    (cut_points ++ [duration])

/-- What the MP3 path hands to the encoder: lines 282-286 run
`concatenate_audioclips(kept_audio_clips)` and the save dialog only under
`if kept_audio_clips:`; an empty plan is silently skipped (`none`). -/
def mp3SinkPlan (cut_points : List ℚ) (duration : ℚ)
    (sections : List String) (silence_duration : ℚ) : Option (List PlanStep) :=
  let plan := cut_and_join_sections_mp3 cut_points duration sections
    silence_duration
  if plan = [] then none else some plan

/-- What the full-video path hands to the encoder: lines 242-254 run
`concatenate_audioclips(final_audio_clips)` unconditionally (once the
confirmation and background-image checks, which do not look at the plan,
have passed), so the plan reaches the sink even when it is empty. -/
def backgroundSinkPlan (cut_points : List ℚ) (duration : ℚ)
    (sections : List String) (silence_duration : ℚ) : Option (List PlanStep) :=
  some (cut_and_join_sections_with_background cut_points duration sections
    silence_duration)

/-- The section boundaries walked by `CutWindow.init_ui` (lines 76-100):
`for i, cut_time in enumerate(self.cut_points + [self.duration])` paired
with the running `last_time`, yielding one `(last_time, cut_time)` range per
section. -/
def uiSectionsFrom (last_time : ℚ) : List ℚ → List (ℚ × ℚ)
  | [] => []
  | cut_time :: rest => (last_time, cut_time) :: uiSectionsFrom cut_time rest

/-- The section list derived by `CutWindow.init_ui` from the duration and
the cut points, starting at `last_time = 0`. -/
def init_ui_sections (duration : ℚ) (cut_points : List ℚ) : List (ℚ × ℚ) :=
  uiSectionsFrom 0 (cut_points ++ [duration])

/-- `CutWindow.get_silence_duration` (lines 204-210): `float()` of the text
field is a collaborator call modelled as an `Option ℚ` (`none` when it
raises ValueError); a parsed value is clamped with `max(value, 0)`, an
unparseable one falls back to 1 second. -/
def get_silence_duration (text_value : Option ℚ) : ℚ :=
  match text_value with
  | some v => max v 0
  | none => 1

/-- Strict alternation of a plan: a `true` flag expects a `keepRange` (or
the end), a `false` flag expects a `silenceGap` (or the end).  A plan
accepted from the `true` start never opens with a gap, never holds two
adjacent gaps, and never holds two adjacent keep steps, so consecutive
kept ranges are separated by exactly one gap. -/
def altFrom : Bool → List PlanStep → Bool
  | _, [] => true
  | true, PlanStep.keepRange _ _ :: rest => altFrom false rest
  | true, PlanStep.silenceGap _ :: _ => false
  | false, PlanStep.silenceGap _ :: rest => altFrom true rest
  | false, PlanStep.keepRange _ _ :: _ => false

/-- A plan alternates keep, gap, keep, gap, ... beginning with a keep. -/
def planAlternating (plan : List PlanStep) : Bool :=
  altFrom true plan

/-- The user-visible editing state of `VideoEditorApp`: the cut-point list
`self.cut_points` and the marker-bar list `self.marker_bar.markers`. -/
structure EditorState where
  cut_points : List ℚ
  markers : List ℚ
  deriving DecidableEq, Repr

/-- `MarkerBar.add_marker` (VideoCutter.py lines 22-26): append the time
position only when `0 <= time_position <= self.duration`. -/
def marker_bar_add (duration : ℚ) (markers : List ℚ) (t : ℚ) : List ℚ :=
  if 0 ≤ t ∧ t ≤ duration then markers ++ [t] else markers

/-- `MarkerBar.remove_marker` (lines 28-32): `del self.markers[index]` only
when `0 <= index < len(self.markers)`; the index arrives as a Python int
and may be negative. -/
def marker_bar_remove (markers : List ℚ) (index : ℤ) : List ℚ :=
  if 0 ≤ index ∧ index < (markers.length : ℤ) then
    markers.eraseIdx index.toNat
  else markers

/-- `VideoEditorApp.add_cut_point` (lines 244-254): append the current time
to `self.cut_points` with no range, duplicate or ordering check, then add a
marker on the marker bar. -/
def add_cut_point (duration : ℚ) (st : EditorState) (t : ℚ) : EditorState :=
  { cut_points := st.cut_points ++ [t]
    markers := marker_bar_add duration st.markers t }

/-- Outcome reported by `undo_last_marker`: the popped cut point is echoed
in the log, or the "No markers to undo." message when there is none. -/
inductive UndoOutcome
  | removed (t : ℚ)
  | empty
  deriving DecidableEq, Repr

/-- `VideoEditorApp.undo_last_marker` (lines 286-293): when `self.cut_points`
is non-empty, pop its last element and remove marker
`len(self.marker_bar.markers) - 1`; otherwise report the empty message and
change nothing. -/
def undo_last_marker (st : EditorState) : EditorState × UndoOutcome :=
  if h : st.cut_points = [] then (st, UndoOutcome.empty)
  else
    ({ cut_points := st.cut_points.dropLast
       markers := marker_bar_remove st.markers ((st.markers.length : ℤ) - 1) },
     UndoOutcome.removed (st.cut_points.getLast h))

/-- Whitespace recognized by Python's `str.strip()` on the inputs at hand. -/
def isSpaceChar (c : Char) : Bool :=
  c = ' ' || c = '\t' || c = '\n' || c = '\r'

/-- Drop leading whitespace from a character list. -/
def dropLeadingSpace : List Char → List Char
  | [] => []
  | c :: rest => if isSpaceChar c then dropLeadingSpace rest else c :: rest

/-- `timecode_str.strip()`: whitespace removed from both ends. -/
def stripChars (cs : List Char) : List Char :=
  ((dropLeadingSpace ((dropLeadingSpace cs.reverse)).reverse).reverse).reverse

/-- `timecode_str.split(":")` on a character list: like Python's `str.split`
with an explicit separator, empty fields preserved. -/
def splitOnColon : List Char → List (List Char)
  | [] => [[]]
  | c :: rest =>
    match splitOnColon rest with
    | [] => [[]]
    | f :: fs => if c = ':' then [] :: f :: fs else (c :: f) :: fs

/-- One regex field `\d{lo,hi}`: between `lo` and `hi` characters, all
decimal digits. -/
def digitsField (lo hi : ℕ) (cs : List Char) : Bool :=
  decide (lo ≤ cs.length) && decide (cs.length ≤ hi) && cs.all Char.isDigit

/-- `int(field)` for an all-digit field. -/
def digitsVal (cs : List Char) : ℕ :=
  cs.foldl (fun a c => a * 10 + (c.toNat - 48)) 0

/-- The regex `^\d{1,2}:\d{2}:\d{2}:\d{3}$` of `parse_timecode`
(HH:MM:SS:MS). -/
def matchesHHMMSSms (cs : List Char) : Bool :=
  match splitOnColon cs with
  | [a, b, c, d] =>
    digitsField 1 2 a && digitsField 2 2 b && digitsField 2 2 c &&
      digitsField 3 3 d
  | _ => false

/-- The regex `^\d{1,2}:\d{2}:\d{2}$` of `parse_timecode` (HH:MM:SS). -/
def matchesHHMMSS (cs : List Char) : Bool :=
  match splitOnColon cs with
  | [a, b, c] => digitsField 1 2 a && digitsField 2 2 b && digitsField 2 2 c
  | _ => false

/-- The regex `^\d{1,2}:\d{2}:\d{3}$` of `parse_timecode` (MM:SS:MS). -/
def matchesMMSSms (cs : List Char) : Bool :=
  match splitOnColon cs with
  | [a, b, c] => digitsField 1 2 a && digitsField 2 2 b && digitsField 3 3 c
  | _ => false

/-- The regex `^\d{1,2}:\d{2}$` of `parse_timecode` (MM:SS). -/
def matchesMMSS (cs : List Char) : Bool :=
  match splitOnColon cs with
  | [a, b] => digitsField 1 2 a && digitsField 2 2 b
  | _ => false

/-- Value of the HH:MM:SS:MS branch:
`hours * 3600 + minutes * 60 + seconds + milliseconds / 1000`. -/
def timecodeValueHMSms (cs : List Char) : ℚ :=
  match splitOnColon cs with
  | [a, b, c, d] =>
    (digitsVal a : ℚ) * 3600 + (digitsVal b : ℚ) * 60 + (digitsVal c : ℚ) +
      (digitsVal d : ℚ) / 1000
  | _ => 0

/-- Value of the HH:MM:SS branch: `hours * 3600 + minutes * 60 + seconds`. -/
def timecodeValueHMS (cs : List Char) : ℚ :=
  match splitOnColon cs with
  | [a, b, c] => (digitsVal a : ℚ) * 3600 + (digitsVal b : ℚ) * 60 +
      (digitsVal c : ℚ)
  | _ => 0

/-- Value of the MM:SS:MS branch:
`minutes * 60 + seconds + milliseconds / 1000`. -/
def timecodeValueMSms (cs : List Char) : ℚ :=
  match splitOnColon cs with
  | [a, b, c] => (digitsVal a : ℚ) * 60 + (digitsVal b : ℚ) +
      (digitsVal c : ℚ) / 1000
  | _ => 0

/-- Value of the MM:SS branch: `minutes * 60 + seconds`. -/
def timecodeValueMS (cs : List Char) : ℚ :=
  match splitOnColon cs with
  | [a, b] => (digitsVal a : ℚ) * 60 + (digitsVal b : ℚ)
  | _ => 0

/-- `VideoEditorApp.parse_timecode` (VideoCutter.py lines 268-284): strip
the input, then try the four regex shapes in the source's elif order, first
match winning; any other shape yields `None`. -/
def parse_timecode (s : String) : Option ℚ :=
  let cs := stripChars s.data
  if matchesHHMMSSms cs then some (timecodeValueHMSms cs)
  else if matchesHHMMSS cs then some (timecodeValueHMS cs)
  else if matchesMMSSms cs then some (timecodeValueMSms cs)
  else if matchesMMSS cs then some (timecodeValueMS cs)
  else none

/-- `VideoEditorApp.add_manual_marker` (lines 256-266): parse the text; when
the parse succeeds and `0 <= t <= duration`, append the cut point and add a
marker; otherwise log "Invalid timecode." and change nothing (`none`). -/
def add_manual_marker (duration : ℚ) (st : EditorState) (text : String) :
    Option EditorState :=
  match parse_timecode text with
  | some t =>
    if 0 ≤ t ∧ t ≤ duration then
      some { cut_points := st.cut_points ++ [t]
             markers := marker_bar_add duration st.markers t }
    else none
  | none => none

/-- The decimal digit character of `d < 10`. -/
def digitChar (d : ℕ) : Char :=
  Char.ofNat (48 + d)

/-- Decimal digits of `n`, most significant first, by fuel-bounded division
(the fuel `n + 1` always suffices). -/
def decDigits (fuel n : ℕ) : List Char :=
  match fuel with
  | 0 => []
  | f + 1 => if n < 10 then [digitChar n] else
      decDigits f (n / 10) ++ [digitChar (n % 10)]

/-- Decimal rendering of a natural number, as Python's `str`. -/
def natToDec (n : ℕ) : String :=
  String.mk (decDigits (n + 1) n)

/-- Python `f"{n:02}"`: zero-padded to at least two characters. -/
def pad2 (n : ℕ) : String :=
  if n < 10 then "0" ++ natToDec n else natToDec n

/-- Python `f"{n:03}"`: zero-padded to at least three characters. -/
def pad3 (n : ℕ) : String :=
  if n < 10 then "00" ++ natToDec n
  else if n < 100 then "0" ++ natToDec n
  else natToDec n

/-- `VideoEditorApp.convert_seconds_to_timecode` (lines 213-219), for the
non-negative times the app feeds it (Python `int()` truncation is the floor
there).  The source rebinds `seconds = remainder` — an integer — before
computing `milliseconds = int((seconds - int(seconds)) * 1000)`, which is
translated literally below. -/
def convert_seconds_to_timecode (seconds : ℚ) : String :=
  let hours := (Rat.floor seconds).toNat / 3600
  let remainder := (Rat.floor seconds).toNat % 3600
  let minutes := remainder / 60
  let seconds2 := remainder % 60
  let milliseconds :=
    (Rat.floor (((seconds2 : ℚ) - ((Rat.floor (seconds2 : ℚ)) : ℚ)) * 1000)).toNat
  pad2 hours ++ ":" ++ pad2 minutes ++ ":" ++ pad2 seconds2 ++ ":" ++
    pad3 milliseconds

/-- `CutWindow.convert_seconds_to_timecode` (CutWindow.py lines 193-198):
the three-field HH:MM:SS rendering of the integer part. -/
def convert_seconds_to_timecode_cw (seconds : ℚ) : String :=
  let hours := (Rat.floor seconds).toNat / 3600
  let remainder := (Rat.floor seconds).toNat % 3600
  let minutes := remainder / 60
  let seconds2 := remainder % 60
  pad2 hours ++ ":" ++ pad2 minutes ++ ":" ++ pad2 seconds2

/-- The two export loops gather the same clip sequence: they are
syntactically parallel translations of CutWindow.py lines 233-239 and
273-279. -/
theorem backgroundKeptClips_eq_mp3 (sections : List String) (g : ℚ) (n : ℕ) :
    ∀ (bs : List ℚ) (i : ℕ) (last_time : ℚ),
      backgroundKeptClips sections g n i last_time bs
        = mp3KeptClips sections g n i last_time bs
  | [], _, _ => rfl
  | c :: rest, i, last_time => by
    unfold backgroundKeptClips mp3KeptClips
    rw [backgroundKeptClips_eq_mp3 sections g n rest (i + 1) c]

/-- When the boundary list ends exactly at section index `n`, the clips
gathered from index `i` onward strictly alternate keep, gap, keep, ... -/
theorem mp3KeptClips_altFrom (sections : List String) (g : ℚ) (n : ℕ) :
    ∀ (bs : List ℚ) (i : ℕ) (last_time : ℚ), i + bs.length = n + 1 →
      altFrom true (mp3KeptClips sections g n i last_time bs) = true
  | [], _, _, _ => rfl
  | c :: rest, i, last_time, h => by
    have hlen : (i + 1) + rest.length = n + 1 := by
      simpa [Nat.add_comm, Nat.add_left_comm] using h
    unfold mp3KeptClips
    by_cases hk : sections.getD i "" = "keep"
    · by_cases hi : i < n
      · simp only [hk, if_pos, hi, if_true, List.cons_append, List.nil_append]
        show altFrom true (mp3KeptClips sections g n (i + 1) c rest) = true
        exact mp3KeptClips_altFrom sections g n rest (i + 1) c hlen
      · have hrest : rest = [] := by
          have : rest.length = 0 := by omega
          exact List.length_eq_zero.mp this
        subst hrest
        simp only [hk, if_pos, hi, if_false, List.cons_append, List.nil_append]
        rfl
    · simp only [hk, if_neg, List.nil_append, if_false]
      exact mp3KeptClips_altFrom sections g n rest (i + 1) c hlen

/-- With no section marked "keep", the loop gathers nothing. -/
theorem mp3KeptClips_no_keep (sections : List String) (g : ℚ) (n : ℕ)
    (h : ∀ s ∈ sections, s ≠ "keep") :
    ∀ (bs : List ℚ) (i : ℕ) (last_time : ℚ),
      mp3KeptClips sections g n i last_time bs = []
  | [], _, _ => rfl
  | c :: rest, i, last_time => by
    have hk : sections.getD i "" ≠ "keep" := by
      rcases lt_or_le i sections.length with hlt | hle
      · rw [List.getD_eq_getElem _ _ hlt]
        exact h _ (List.getElem_mem hlt)
      · rw [List.getD_eq_default _ _ hle]
        decide
    unfold mp3KeptClips
    simp only [hk, if_neg, List.nil_append, if_false]
    exact mp3KeptClips_no_keep sections g n h rest (i + 1) c

/-- C10: for every duration, cut-point sequence, section-state list and
silence-gap duration, the full-video export path and the MP3-only export
path assemble exactly the same ordered sequence of kept ranges and silence
gaps. -/
theorem c10_paths_agree (cut_points : List ℚ) (duration : ℚ)
    (sections : List String) (silence_duration : ℚ) :
    cut_and_join_sections_with_background cut_points duration sections
        silence_duration
      = cut_and_join_sections_mp3 cut_points duration sections
        silence_duration := by
  unfold cut_and_join_sections_with_background cut_and_join_sections_mp3
  exact backgroundKeptClips_eq_mp3 sections silence_duration cut_points.length
    (cut_points ++ [duration]) 0 0

/-- C3: on a 30-second item with cut points at 10 and 20 and states
[Keep, Delete, Keep], both export paths build exactly
[KeepRange(0,10), SilenceGap(g), KeepRange(20,30)], of total duration
20 + g. -/
theorem c3_keep_delete_keep (g : ℚ) :
    cut_and_join_sections_with_background [10, 20] 30
        ["keep", "delete", "keep"] g
      = [PlanStep.keepRange 0 10, PlanStep.silenceGap g,
         PlanStep.keepRange 20 30] ∧
    cut_and_join_sections_mp3 [10, 20] 30 ["keep", "delete", "keep"] g
      = [PlanStep.keepRange 0 10, PlanStep.silenceGap g,
         PlanStep.keepRange 20 30] ∧
    planTotalDuration
        [PlanStep.keepRange 0 10, PlanStep.silenceGap g,
         PlanStep.keepRange 20 30]
      = 20 + g := by
  refine ⟨rfl, rfl, ?_⟩
  simp [planTotalDuration, stepDuration]
  ring

/-- C1, counterexample: with sections [Keep, Keep, Delete] on the same
30-second item, the built plan ends in a SilenceGap — a gap after the last
KeepRange, which the claim rules out. -/
theorem c1_counterexample :
    cut_and_join_sections_mp3 [10, 20] 30 ["keep", "keep", "delete"] 1
      = [PlanStep.keepRange 0 10, PlanStep.silenceGap 1,
         PlanStep.keepRange 10 20, PlanStep.silenceGap 1] ∧
    (cut_and_join_sections_mp3 [10, 20] 30
        ["keep", "keep", "delete"] 1).getLast?
      = some (PlanStep.silenceGap 1) ∧
    (cut_and_join_sections_with_background [10, 20] 30
        ["keep", "keep", "delete"] 1).getLast?
      = some (PlanStep.silenceGap 1) :=
  ⟨rfl, rfl, rfl⟩

/-- C1, amended: for every section list and non-negative gap duration, both
plans strictly alternate KeepRange and SilenceGap steps beginning with a
KeepRange — so no gap precedes the first kept range, exactly one gap
separates consecutive kept ranges regardless of how many deleted sections
lie between them, and no two gaps are adjacent; a single gap may however
trail the final KeepRange (when the last section of the item is not kept). -/
theorem c1_gap_alternation (cut_points : List ℚ) (duration : ℚ)
    (sections : List String) (g : ℚ) (hg : 0 ≤ g) :
    planAlternating
        (cut_and_join_sections_mp3 cut_points duration sections g) = true ∧
    planAlternating
        (cut_and_join_sections_with_background cut_points duration sections g)
      = true := by
  have key : altFrom true
      (mp3KeptClips sections g cut_points.length 0 0
        (cut_points ++ [duration])) = true := by
    apply mp3KeptClips_altFrom
    simp
  constructor
  · exact key
  · unfold planAlternating cut_and_join_sections_with_background
    rw [backgroundKeptClips_eq_mp3]
    exact key

/-- C1, witness: the amended theorem at the concrete [Keep, Delete, Keep]
item with gap 1. -/
theorem c1_witness :
    planAlternating
        (cut_and_join_sections_mp3 [10, 20] 30 ["keep", "delete", "keep"] 1)
      = true ∧
    planAlternating
        (cut_and_join_sections_with_background [10, 20] 30
          ["keep", "delete", "keep"] 1) = true :=
  c1_gap_alternation [10, 20] 30 ["keep", "delete", "keep"] 1 (by norm_num)

/-- C8, counterexample: with every section deleted, the full-video path
still hands the (empty) plan to the audio concatenation — no NothingToKeep
check happens before the sink on that path. -/
theorem c8_counterexample :
    cut_and_join_sections_with_background [10] 20 ["delete", "delete"] 1
      = [] ∧
    backgroundSinkPlan [10] 20 ["delete", "delete"] 1 = some [] :=
  ⟨rfl, rfl⟩

/-- C8, amended: with no section marked Keep both paths build an empty
plan; the MP3 path then skips its sink (silently, with no explicit
NothingToKeep report), while the full-video path performs no emptiness
check and passes the empty plan on to the concatenation step. -/
theorem c8_empty_plan (cut_points : List ℚ) (duration : ℚ)
    (sections : List String) (g : ℚ)
    (h : ∀ s ∈ sections, s ≠ "keep") :
    cut_and_join_sections_mp3 cut_points duration sections g = [] ∧
    cut_and_join_sections_with_background cut_points duration sections g
      = [] ∧
    mp3SinkPlan cut_points duration sections g = none ∧
    backgroundSinkPlan cut_points duration sections g = some [] := by
  have hmp3 : cut_and_join_sections_mp3 cut_points duration sections g = [] :=
    mp3KeptClips_no_keep sections g cut_points.length h _ 0 0
  have hbg : cut_and_join_sections_with_background cut_points duration
      sections g = [] := by
    unfold cut_and_join_sections_with_background
    rw [backgroundKeptClips_eq_mp3]
    exact mp3KeptClips_no_keep sections g cut_points.length h _ 0 0
  refine ⟨hmp3, hbg, ?_, ?_⟩
  · unfold mp3SinkPlan
    simp [hmp3]
  · unfold backgroundSinkPlan
    rw [hbg]

/-- C8, witness: the amended theorem at the concrete all-Delete input. -/
theorem c8_witness :
    cut_and_join_sections_mp3 [10] 20 ["delete", "delete"] 1 = [] ∧
    cut_and_join_sections_with_background [10] 20 ["delete", "delete"] 1
      = [] ∧
    mp3SinkPlan [10] 20 ["delete", "delete"] 1 = none ∧
    backgroundSinkPlan [10] 20 ["delete", "delete"] 1 = some [] :=
  c8_empty_plan [10] 20 ["delete", "delete"] 1 (by decide)

/-- C9, counterexample: an unparseable silence input yields the 1-second
default, not the 0 the claim states. -/
theorem c9_counterexample :
    get_silence_duration none = 1 ∧ (1 : ℚ) ≠ 0 :=
  ⟨rfl, by norm_num⟩

/-- C9, amended: the stored silence-gap setting is always non-negative;
an unparseable input falls back to the 1-second default, and a parsed
negative value is clamped to 0 (a parsed non-negative value is kept). -/
theorem c9_clamp (text_value : Option ℚ) :
    0 ≤ get_silence_duration text_value ∧
    get_silence_duration none = 1 ∧
    (∀ v : ℚ, v < 0 → get_silence_duration (some v) = 0) ∧
    (∀ v : ℚ, 0 ≤ v → get_silence_duration (some v) = v) := by
  refine ⟨?_, rfl, ?_, ?_⟩
  · cases text_value with
    | none => norm_num [get_silence_duration]
    | some v => simp [get_silence_duration]
  · intro v hv
    simp [get_silence_duration, max_eq_right (le_of_lt hv)]
  · intro v hv
    simp [get_silence_duration, max_eq_left hv]

/-- One derived section per boundary walked. -/
theorem uiSectionsFrom_length : ∀ (bs : List ℚ) (last_time : ℚ),
    (uiSectionsFrom last_time bs).length = bs.length
  | [], _ => rfl
  | c :: rest, last_time => by
    simp [uiSectionsFrom, uiSectionsFrom_length rest c]

/-- Consecutive derived sections share their boundary: each section's end
is the next section's start. -/
theorem uiSectionsFrom_chain : ∀ (bs : List ℚ) (last_time : ℚ),
    List.Chain' (fun a b : ℚ × ℚ => a.2 = b.1) (uiSectionsFrom last_time bs)
  | [], _ => List.chain'_nil
  | c :: rest, last_time => by
    rw [uiSectionsFrom, List.chain'_cons']
    refine ⟨?_, uiSectionsFrom_chain rest c⟩
    intro b hb
    cases rest with
    | nil => simp [uiSectionsFrom] at hb
    | cons r rs =>
      simp only [uiSectionsFrom, List.head?_cons, Option.mem_def,
        Option.some.injEq] at hb
      rw [← hb]

/-- The last derived section ends at the final boundary. -/
theorem uiSectionsFrom_getLast : ∀ (bs : List ℚ) (last_time d : ℚ),
    (uiSectionsFrom last_time (bs ++ [d])).getLast?.map Prod.snd = some d
  | [], _, _ => rfl
  | c :: rest, last_time, d => by
    have ih := uiSectionsFrom_getLast rest c d
    cases rest with
    | nil =>
      simp [uiSectionsFrom]
    | cons r rs =>
      show Option.map Prod.snd
        ((last_time, c) :: (c, r) :: uiSectionsFrom r (rs ++ [d])).getLast?
          = some d
      rw [List.getLast?_cons_cons]
      exact ih

/-- C2: for every duration and cut-point sequence, the derived section list
has length `len(cutPoints) + 1`, starts at 0, is contiguous (each section's
end equals the next section's start), ends at the duration, and, for an
empty cut-point sequence, is the single section spanning the whole item. -/
theorem c2_sections_partition (duration : ℚ) (cut_points : List ℚ) :
    (init_ui_sections duration cut_points).length = cut_points.length + 1 ∧
    (init_ui_sections duration cut_points).head?.map Prod.fst = some 0 ∧
    List.Chain' (fun a b : ℚ × ℚ => a.2 = b.1)
      (init_ui_sections duration cut_points) ∧
    (init_ui_sections duration cut_points).getLast?.map Prod.snd
      = some duration ∧
    init_ui_sections duration [] = [(0, duration)] := by
  refine ⟨?_, ?_, ?_, ?_, rfl⟩
  · rw [init_ui_sections, uiSectionsFrom_length]
    simp
  · cases cut_points with
    | nil => rfl
    | cons c rest => rfl
  · exact uiSectionsFrom_chain (cut_points ++ [duration]) 0
  · exact uiSectionsFrom_getLast cut_points 0 duration

/-- Appending an element and erasing at the old length is the identity. -/
theorem eraseIdx_append_singleton : ∀ (ms : List ℚ) (t : ℚ),
    (ms ++ [t]).eraseIdx ms.length = ms
  | [], _ => rfl
  | m :: rest, t => by
    simp only [List.cons_append, List.length_cons, List.eraseIdx_cons_succ,
      List.cons.injEq, true_and]
    exact eraseIdx_append_singleton rest t

/-- C7: adding a cut point at a valid time and undoing restores the editor
state exactly — the popped cut point is echoed back — and undo on a state
with no cut points reports the empty message and changes nothing. -/
theorem c7_add_undo (duration t : ℚ) (st : EditorState)
    (h0 : 0 ≤ t) (h1 : t ≤ duration) :
    undo_last_marker (add_cut_point duration st t)
      = (st, UndoOutcome.removed t) ∧
    (st.cut_points = [] → undo_last_marker st = (st, UndoOutcome.empty)) := by
  constructor
  · have hmark : marker_bar_add duration st.markers t = st.markers ++ [t] := by
      rw [marker_bar_add, if_pos ⟨h0, h1⟩]
    have hne : st.cut_points ++ [t] ≠ [] := by simp
    rw [add_cut_point, hmark, undo_last_marker, dif_neg hne]
    have hidx : ((st.markers ++ [t]).length : ℤ) - 1 = (st.markers.length : ℤ) := by
      simp
    rw [marker_bar_remove, hidx, if_pos
      ⟨by positivity,
       by simp only [List.length_append, List.length_cons, List.length_nil]; omega⟩]
    simp only [Int.toNat_natCast, eraseIdx_append_singleton,
      List.dropLast_concat, List.getLast_append]
    rfl
  · intro hempty
    rw [undo_last_marker, dif_pos hempty]

/-- C7, witness: add 10 to the empty 30-second editor state, then undo. -/
theorem c7_witness :
    undo_last_marker (add_cut_point 30 ⟨[], []⟩ 10)
      = (⟨[], []⟩, UndoOutcome.removed 10) ∧
    ((⟨[], []⟩ : EditorState).cut_points = [] →
      undo_last_marker ⟨[], []⟩ = (⟨[], []⟩, UndoOutcome.empty)) :=
  c7_add_undo 30 10 ⟨[], []⟩ (by norm_num) (by norm_num)

/-- Mathlib's floor on ℚ is the source-level `Rat.floor`. -/
theorem rat_floor_eq_intFloor (q : ℚ) : Rat.floor q = ⌊q⌋ := by
  rw [Rat.floor_def', Rat.floor_def]

/-- C4, counterexample: a duplicate cut point is accepted (no Duplicate
failure: adding 10 when 10 is already present appends a second copy), and
a smaller time added after a larger one is appended at the end rather than
inserted in sorted order. -/
theorem c4_counterexample :
    add_manual_marker 30 ⟨[10], [10]⟩ "00:00:10"
      = some ⟨[10, 10], [10, 10]⟩ ∧
    add_manual_marker 30 ⟨[20], [20]⟩ "00:00:10"
      = some ⟨[20, 10], [20, 10]⟩ ∧
    ¬ List.Sorted (· ≤ ·) [(20 : ℚ), 10] := by
  have hp : parse_timecode "00:00:10" = some 10 := by
    rw [show parse_timecode "00:00:10"
        = some ((digitsVal [Char.ofNat 48, Char.ofNat 48] : ℚ) * 3600
            + (digitsVal [Char.ofNat 48, Char.ofNat 48] : ℚ) * 60
            + (digitsVal [Char.ofNat 49, Char.ofNat 48] : ℚ)) from rfl]
    norm_num [show digitsVal [Char.ofNat 48, Char.ofNat 48] = 0 from rfl,
      show digitsVal [Char.ofNat 49, Char.ofNat 48] = 10 from rfl]
  refine ⟨?_, ?_, ?_⟩
  · unfold add_manual_marker
    rw [hp]
    norm_num [marker_bar_add]
  · unfold add_manual_marker
    rw [hp]
    norm_num [marker_bar_add]
  · intro hs
    have := List.rel_of_sorted_cons hs 10 (by simp)
    norm_num at this

/-- C4, amended: the manual-marker path rejects a parsed time outside
[0, duration] (the state is unchanged and the marker refused), and
otherwise appends the time at the end of the cut-point sequence — with no
duplicate check (the count of an already-present time simply grows) and no
sorted insertion. -/
theorem c4_add_validation (duration t : ℚ) (st : EditorState) (s : String)
    (hp : parse_timecode s = some t) :
    (add_manual_marker duration st s = none ↔ t < 0 ∨ duration < t) ∧
    (0 ≤ t → t ≤ duration →
      add_manual_marker duration st s
        = some ⟨st.cut_points ++ [t], st.markers ++ [t]⟩ ∧
      (st.cut_points ++ [t]).count t = st.cut_points.count t + 1) := by
  have hred : add_manual_marker duration st s
      = if 0 ≤ t ∧ t ≤ duration then
          some { cut_points := st.cut_points ++ [t]
                 markers := marker_bar_add duration st.markers t }
        else none := by
    unfold add_manual_marker
    rw [hp]
  constructor
  · rw [hred]
    constructor
    · intro h
      by_contra hc
      push_neg at hc
      rw [if_pos hc] at h
      exact Option.some_ne_none _ h
    · intro h
      rw [if_neg]
      intro hcond
      rcases h with h | h
      · exact absurd hcond.1 (not_le.mpr h)
      · exact absurd hcond.2 (not_le.mpr h)
  · intro h0 h1
    constructor
    · rw [hred, if_pos ⟨h0, h1⟩, marker_bar_add, if_pos ⟨h0, h1⟩]
    · simp [List.count_append]

/-- C4, witness: adding a marker at 00:00:35 on a 30-second item is
rejected as out of range. -/
theorem c4_witness :
    add_manual_marker 30 ⟨[], []⟩ "00:00:35" = none := by
  have hp : parse_timecode "00:00:35" = some 35 := by
    rw [show parse_timecode "00:00:35"
        = some ((digitsVal [Char.ofNat 48, Char.ofNat 48] : ℚ) * 3600
            + (digitsVal [Char.ofNat 48, Char.ofNat 48] : ℚ) * 60
            + (digitsVal [Char.ofNat 51, Char.ofNat 53] : ℚ)) from rfl]
    norm_num [show digitsVal [Char.ofNat 48, Char.ofNat 48] = 0 from rfl,
      show digitsVal [Char.ofNat 51, Char.ofNat 53] = 35 from rfl]
  exact (c4_add_validation 30 35 ⟨[], []⟩ "00:00:35" hp).1.mpr
    (Or.inr (by norm_num))

/-- C5: the timecode parser accepts exactly the four shapes
HH:MM:SS:mmm, HH:MM:SS, MM:SS:mmm and MM:SS — anything matching none of
them fails — and tries them in that order, the first matching shape
determining the value; on the concrete inputs, "01:02:03" parses to 3723
seconds, "02:05" to 125 seconds, "1:02:03:004" to 3723.004 seconds, and
"bad" fails. -/
theorem c5_parse_shapes (s : String) :
    ((parse_timecode s).isSome
      = (matchesHHMMSSms (stripChars s.data)
          || matchesHHMMSS (stripChars s.data)
          || matchesMMSSms (stripChars s.data)
          || matchesMMSS (stripChars s.data))) ∧
    (matchesHHMMSSms (stripChars s.data) = true →
      parse_timecode s = some (timecodeValueHMSms (stripChars s.data))) ∧
    (matchesHHMMSSms (stripChars s.data) = false →
      matchesHHMMSS (stripChars s.data) = true →
      parse_timecode s = some (timecodeValueHMS (stripChars s.data))) ∧
    (matchesHHMMSSms (stripChars s.data) = false →
      matchesHHMMSS (stripChars s.data) = false →
      matchesMMSSms (stripChars s.data) = true →
      parse_timecode s = some (timecodeValueMSms (stripChars s.data))) ∧
    (matchesHHMMSSms (stripChars s.data) = false →
      matchesHHMMSS (stripChars s.data) = false →
      matchesMMSSms (stripChars s.data) = false →
      matchesMMSS (stripChars s.data) = true →
      parse_timecode s = some (timecodeValueMS (stripChars s.data))) ∧
    (matchesHHMMSSms (stripChars s.data) = false →
      matchesHHMMSS (stripChars s.data) = false →
      matchesMMSSms (stripChars s.data) = false →
      matchesMMSS (stripChars s.data) = false →
      parse_timecode s = none) ∧
    parse_timecode "01:02:03" = some 3723 ∧
    parse_timecode "02:05" = some 125 ∧
    parse_timecode "1:02:03:004" = some (3723 + 4 / 1000) ∧
    parse_timecode "bad" = none := by
  refine ⟨?_, ?_, ?_, ?_, ?_, ?_, ?_, ?_, ?_, rfl⟩
  · unfold parse_timecode
    by_cases h1 : matchesHHMMSSms (stripChars s.data) = true <;>
      by_cases h2 : matchesHHMMSS (stripChars s.data) = true <;>
      by_cases h3 : matchesMMSSms (stripChars s.data) = true <;>
      by_cases h4 : matchesMMSS (stripChars s.data) = true <;>
      simp [h1, h2, h3, h4]
  · intro h1
    unfold parse_timecode
    simp [h1]
  · intro h1 h2
    unfold parse_timecode
    simp [h1, h2]
  · intro h1 h2 h3
    unfold parse_timecode
    simp [h1, h2, h3]
  · intro h1 h2 h3 h4
    unfold parse_timecode
    simp [h1, h2, h3, h4]
  · intro h1 h2 h3 h4
    unfold parse_timecode
    simp [h1, h2, h3, h4]
  · rw [show parse_timecode "01:02:03"
        = some ((digitsVal [Char.ofNat 48, Char.ofNat 49] : ℚ) * 3600
            + (digitsVal [Char.ofNat 48, Char.ofNat 50] : ℚ) * 60
            + (digitsVal [Char.ofNat 48, Char.ofNat 51] : ℚ)) from rfl]
    norm_num [show digitsVal [Char.ofNat 48, Char.ofNat 49] = 1 from rfl,
      show digitsVal [Char.ofNat 48, Char.ofNat 50] = 2 from rfl,
      show digitsVal [Char.ofNat 48, Char.ofNat 51] = 3 from rfl]
  · rw [show parse_timecode "02:05"
        = some ((digitsVal [Char.ofNat 48, Char.ofNat 50] : ℚ) * 60
            + (digitsVal [Char.ofNat 48, Char.ofNat 53] : ℚ)) from rfl]
    norm_num [show digitsVal [Char.ofNat 48, Char.ofNat 50] = 2 from rfl,
      show digitsVal [Char.ofNat 48, Char.ofNat 53] = 5 from rfl]
  · rw [show parse_timecode "1:02:03:004"
        = some ((digitsVal [Char.ofNat 49] : ℚ) * 3600
            + (digitsVal [Char.ofNat 48, Char.ofNat 50] : ℚ) * 60
            + (digitsVal [Char.ofNat 48, Char.ofNat 51] : ℚ)
            + (digitsVal [Char.ofNat 48, Char.ofNat 48, Char.ofNat 52] : ℚ)
              / 1000) from rfl]
    norm_num [show digitsVal [Char.ofNat 49] = 1 from rfl,
      show digitsVal [Char.ofNat 48, Char.ofNat 50] = 2 from rfl,
      show digitsVal [Char.ofNat 48, Char.ofNat 51] = 3 from rfl,
      show digitsVal [Char.ofNat 48, Char.ofNat 48, Char.ofNat 52] = 4 from rfl]

/-- C6, code-bug record: formatting 3723.004 seconds with the four-field
formatter prints "01:02:03:000" — the fractional part is lost because the
source overwrites its `seconds` variable with an integer before computing
the milliseconds — so parsing the formatted text yields 3723, not the
3723.004 that millisecond-precision round-tripping requires. -/
theorem c6_roundtrip_code_bug :
    convert_seconds_to_timecode (3723 + 4 / 1000) = "01:02:03:000" ∧
    parse_timecode "01:02:03:000" = some 3723 ∧
    (3723 : ℚ) ≠ 3723 + 4 / 1000 := by
  refine ⟨?_, ?_, by norm_num⟩
  · have hf : Rat.floor (3723 + 4 / 1000 : ℚ) = 3723 := by
      rw [rat_floor_eq_intFloor]
      norm_num
    simp only [convert_seconds_to_timecode, hf]
    norm_num [rat_floor_eq_intFloor, show Int.toNat 3723 = 3723 from rfl]
    decide
  · rw [show parse_timecode "01:02:03:000"
        = some ((digitsVal [Char.ofNat 48, Char.ofNat 49] : ℚ) * 3600
            + (digitsVal [Char.ofNat 48, Char.ofNat 50] : ℚ) * 60
            + (digitsVal [Char.ofNat 48, Char.ofNat 51] : ℚ)
            + (digitsVal [Char.ofNat 48, Char.ofNat 48, Char.ofNat 48] : ℚ)
              / 1000) from rfl]
    norm_num [show digitsVal [Char.ofNat 48, Char.ofNat 49] = 1 from rfl,
      show digitsVal [Char.ofNat 48, Char.ofNat 50] = 2 from rfl,
      show digitsVal [Char.ofNat 48, Char.ofNat 51] = 3 from rfl,
      show digitsVal [Char.ofNat 48, Char.ofNat 48, Char.ofNat 48] = 0 from rfl]

end VideoCutter
